import Mathlib

/-!
Verification of the Xi-correlation estimator and the correlation analyzer
of `src/stats/corr.py` against its specification.

The estimator `_get_xicor` is embedded over `ℚ` (exact rational arithmetic in
place of the floating-point arrays of the source); the p-value, a Gaussian
survival function, is embedded over `ℝ` via the Gaussian measure.  The
DataFrame layer of `_get_xicor_score` / `corr` is embedded as association
lists of named columns.
-/

namespace XicorSpec

/-- Tie-handling argument of `_get_xicor`: `'auto'`, `True` or `False`. -/
inductive Ties where
  | auto : Ties
  | withTies : Ties
  | noTies : Ties
deriving DecidableEq

/-- Errors raised by `_get_xicor` (the `IndexError` of the length check). -/
inductive XiErr where
  | lengthMismatch : XiErr
deriving DecidableEq

/-- `y[np.argsort(x)]` (line 221): the values of `y` re-expressed in the
ascending sort order of `x`.  The sort permutation is realised by stably
sorting the `(x, y)` pairs by their first component, a valid ascending sort
of `x` as the spec demands. -/
def xSortedY (x y : List ℚ) : List ℚ :=
  ((x.zip y).insertionSort (fun a b => a.1 ≤ b.1)).map Prod.snd

/-- `scipy.stats.rankdata(l, method="ordinal")` (line 222): element `i`
receives rank `1 + #{j | l j < l i} + #{j < i | l j = l i}` — ranks `1..n`
with ties broken by order of appearance. -/
def rankOrd (l : List ℚ) : List ℕ :=
  (List.range l.length).map (fun i =>
    1 + l.countP (fun z => decide (z < l.getD i 0))
      + (l.take i).countP (fun z => decide (z = l.getD i 0)))

/-- `scipy.stats.rankdata(l, method="max")` (line 226): each element receives
the number of elements `≤` it, so tied groups share the maximal rank. -/
def rankMax (l : List ℚ) : List ℕ :=
  l.map (fun v => l.countP (fun z => decide (z ≤ v)))

/-- `np.sum(np.abs(np.diff(r)))` (line 223): the sum of absolute differences
of consecutive entries. -/
def absDiffSum (r : List ℕ) : ℕ :=
  ((r.zip r.tail).map (fun p => ((p.2 : ℤ) - (p.1 : ℤ)).natAbs)).sum

/-- Lines 216-219: `ties == "auto"` resolves to `len(np.unique(y)) < n`. -/
def resolveTies (ties : Ties) (y : List ℚ) : Bool :=
  match ties with
  | .auto => decide (y.dedup.length < y.length)
  | .withTies => true
  | .noTies => false

/-- `nominator` before branch scaling (line 223): the sum of absolute
differences of consecutive ordinal ranks of `y` in `x`-sorted order. -/
def nominator0 (x y : List ℚ) : ℕ :=
  absDiffSum (rankOrd (xSortedY x y))

/-- Denominator of the ties branch (line 227): `2 * np.sum(l * (n - l))`
with `l` the max-ranks of the `x`-sorted `y` and `n = len(y)`. -/
def tiesDenominator (x y : List ℚ) : ℚ :=
  2 * ((rankMax (xSortedY x y)).map
    (fun li : ℕ => (li : ℚ) * ((y.length : ℚ) - (li : ℚ)))).sum

/-- Denominator of the no-ties branch (line 230): `n ** 2 - 1`. -/
def noTiesDenominator (n : ℕ) : ℚ :=
  (n : ℚ) ^ 2 - 1

/-- The statistic computed by lines 216-233 of `_get_xicor` once the length
check has passed: branch on the resolved ties mode, scale the nominator, and
return `1 - nominator / denominator`. -/
def xicorStatTotal (x y : List ℚ) (ties : Ties) : ℚ :=
  if resolveTies ties y then
    1 - ((nominator0 x y : ℚ) * (y.length : ℚ)) / tiesDenominator x y
  else
    1 - ((nominator0 x y : ℚ) * 3) / noTiesDenominator y.length

/-- `_get_xicor` (lines 209-236): raise `IndexError` when
`len(x) != len(y)`, otherwise compute the statistic. -/
def xicorCore (x y : List ℚ) (ties : Ties) : Except XiErr ℚ :=
  if x.length ≠ y.length then Except.error XiErr.lengthMismatch
  else Except.ok (xicorStatTotal x y ties)

instance {ε α : Type} [DecidableEq ε] [DecidableEq α] : DecidableEq (Except ε α) := fun a b =>
  match a, b with
  | .error u, .error v =>
      if h : u = v then .isTrue (by rw [h]) else .isFalse (by simp [h])
  | .ok u, .ok v =>
      if h : u = v then .isTrue (by rw [h]) else .isFalse (by simp [h])
  | .error _, .ok _ => .isFalse (by simp)
  | .ok _, .error _ => .isFalse (by simp)

/-- `scipy.stats.norm.sf(t, scale)` (line 234), mathematically: the
upper-tail probability of a centred Gaussian of standard deviation `scale`
(variance `scale ^ 2`). -/
noncomputable def norm_sf (t scale : ℝ) : ℝ :=
  ((ProbabilityTheory.gaussianReal 0 (Real.toNNReal (scale ^ 2))) (Set.Ioi t)).toReal

/-- `p_value = norm.sf(statistic, scale=2 / 5 / np.sqrt(n))` (line 234). -/
noncomputable def xicorPValue (s : ℚ) (n : ℕ) : ℝ :=
  norm_sf (s : ℝ) (2 / 5 / Real.sqrt (n : ℝ))

/-- C1: on `x = [1,2,3,4,5]`, `y = [1,2,3,4,5]` with `ties = False`, the
estimator computes `nominator0 = 4`, scaled nominator `12`, denominator
`24`, and returns `statistic = 1 - 12/24 = 1/2`. -/
theorem xicor_worked_example :
    nominator0 [1, 2, 3, 4, 5] [1, 2, 3, 4, 5] = 4 ∧
    nominator0 [1, 2, 3, 4, 5] [1, 2, 3, 4, 5] * 3 = 12 ∧
    noTiesDenominator 5 = 24 ∧
    xicorCore [1, 2, 3, 4, 5] [1, 2, 3, 4, 5] Ties.noTies = Except.ok (1 / 2 : ℚ) := by
  have hnom : nominator0 [1, 2, 3, 4, 5] [1, 2, 3, 4, 5] = 4 := by decide
  refine ⟨hnom, by decide, by norm_num [noTiesDenominator], ?_⟩
  have hres : resolveTies Ties.noTies [1, 2, 3, 4, 5] = false := rfl
  simp only [xicorCore, xicorStatTotal, hres, hnom, if_false, Bool.false_eq_true,
    ite_false, List.length_cons, List.length_nil, ne_eq, not_true_eq_false]
  norm_num [noTiesDenominator]

/-- C6: whenever `len(x) ≠ len(y)`, `_get_xicor` raises the
length-mismatch `IndexError` and produces no result. -/
theorem xicor_length_mismatch (x y : List ℚ) (ties : Ties)
    (h : x.length ≠ y.length) :
    xicorCore x y ties = Except.error XiErr.lengthMismatch := by
  simp [xicorCore, h]

/-- Witness for `xicor_length_mismatch` at `x = [1]`, `y = []`. -/
theorem xicor_length_mismatch_witness :
    [(1 : ℚ)].length ≠ ([] : List ℚ).length ∧
    xicorCore [(1 : ℚ)] [] Ties.auto = Except.error XiErr.lengthMismatch :=
  ⟨by decide, xicor_length_mismatch [(1 : ℚ)] [] Ties.auto (by decide)⟩

/-- C2: at the degenerate input `n = 1` (x = [1], y = [1], ties = False) the
code does not fail: it returns normally even though the no-ties denominator
`n² - 1` is `0` (the source divides by zero there, yielding NaN, instead of
raising a degenerate-input error). -/
theorem xicor_degenerate_returns_ok :
    noTiesDenominator 1 = 0 ∧
    xicorCore [(1 : ℚ)] [(1 : ℚ)] Ties.noTies = Except.ok (xicorStatTotal [(1 : ℚ)] [(1 : ℚ)] Ties.noTies) := by
  constructor
  · norm_num [noTiesDenominator]
  · simp [xicorCore]

lemma length_xSortedY (x y : List ℚ) (h : x.length = y.length) :
    (xSortedY x y).length = y.length := by
  simp [xSortedY, h]

lemma mem_rankMax_le {l : List ℚ} {li : ℕ} (h : li ∈ rankMax l) : li ≤ l.length := by
  rw [rankMax] at h
  obtain ⟨v, _, rfl⟩ := List.mem_map.mp h
  exact List.countP_le_length _

lemma tiesDenominator_nonneg (x y : List ℚ) (h : x.length = y.length) :
    0 ≤ tiesDenominator x y := by
  rw [tiesDenominator]
  have hsum : 0 ≤ ((rankMax (xSortedY x y)).map
      (fun li : ℕ => (li : ℚ) * ((y.length : ℚ) - (li : ℚ)))).sum := by
    apply List.sum_nonneg
    intro a ha
    obtain ⟨li, hli, rfl⟩ := List.mem_map.mp ha
    have hle : li ≤ y.length := by
      have := mem_rankMax_le hli
      rwa [length_xSortedY x y h] at this
    have : (li : ℚ) ≤ (y.length : ℚ) := by exact_mod_cast hle
    have hnn : (0 : ℚ) ≤ (li : ℚ) := by positivity
    nlinarith
  linarith

lemma noTiesDenominator_nonneg {n : ℕ} (hn : 2 ≤ n) :
    0 ≤ noTiesDenominator n := by
  rw [noTiesDenominator]
  have : (2 : ℚ) ≤ (n : ℚ) := by exact_mod_cast hn
  nlinarith

lemma xicorStatTotal_le_one (x y : List ℚ) (ties : Ties)
    (hlen : x.length = y.length) (hn : 2 ≤ y.length) :
    xicorStatTotal x y ties ≤ 1 := by
  rw [xicorStatTotal]
  split
  · have hnum : (0 : ℚ) ≤ (nominator0 x y : ℚ) * (y.length : ℚ) := by positivity
    have hden := tiesDenominator_nonneg x y hlen
    have := div_nonneg hnum hden
    linarith
  · have hnum : (0 : ℚ) ≤ (nominator0 x y : ℚ) * 3 := by positivity
    have hden := noTiesDenominator_nonneg hn
    have := div_nonneg hnum hden
    linarith

lemma norm_sf_nonneg (t c : ℝ) : 0 ≤ norm_sf t c :=
  ENNReal.toReal_nonneg

lemma norm_sf_le_one (t c : ℝ) : norm_sf t c ≤ 1 := by
  rw [norm_sf]
  have h : (ProbabilityTheory.gaussianReal 0 (Real.toNNReal (c ^ 2))) (Set.Ioi t) ≤ 1 :=
    MeasureTheory.prob_le_one
  calc ((ProbabilityTheory.gaussianReal 0 (Real.toNNReal (c ^ 2))) (Set.Ioi t)).toReal
      ≤ (1 : ENNReal).toReal := ENNReal.toReal_mono ENNReal.one_ne_top h
    _ = 1 := by simp

/-- C3: for every equal-length pair with `n ≥ 2` and every ties argument the
estimator succeeds with a statistic `≤ 1` and a p-value in `[0, 1]`. -/
theorem xicor_bounds (x y : List ℚ) (ties : Ties)
    (hlen : x.length = y.length) (hn : 2 ≤ y.length) :
    ∃ s : ℚ, xicorCore x y ties = Except.ok s ∧ s ≤ 1 ∧
      0 ≤ xicorPValue s y.length ∧ xicorPValue s y.length ≤ 1 := by
  refine ⟨xicorStatTotal x y ties, ?_, xicorStatTotal_le_one x y ties hlen hn,
    norm_sf_nonneg _ _, norm_sf_le_one _ _⟩
  simp [xicorCore, hlen]

/-- Witness for `xicor_bounds` at `x = [1, 2]`, `y = [3, 4]`, `ties = auto`. -/
theorem xicor_bounds_witness :
    [(1 : ℚ), 2].length = [(3 : ℚ), 4].length ∧ 2 ≤ [(3 : ℚ), 4].length ∧
    ∃ s : ℚ, xicorCore [(1 : ℚ), 2] [(3 : ℚ), 4] Ties.auto = Except.ok s ∧ s ≤ 1 ∧
      0 ≤ xicorPValue s [(3 : ℚ), 4].length ∧ xicorPValue s [(3 : ℚ), 4].length ≤ 1 :=
  ⟨rfl, by decide, xicor_bounds [(1 : ℚ), 2] [(3 : ℚ), 4] Ties.auto rfl (by decide)⟩

/-- C5: for equal-length inputs, `ties = auto` resolves to true exactly when
`y` has a repeated value, the resolved mode selects the corresponding
explicit branch, and the two branches use the max-ranking denominator with
nominator scaled by `n` versus the `n² - 1` denominator with nominator
scaled by `3`. -/
theorem xicor_auto_resolution (x y : List ℚ) (hlen : x.length = y.length) :
    (resolveTies Ties.auto y = true ↔ y.dedup.length < y.length) ∧
    xicorCore x y Ties.auto =
      (if y.dedup.length < y.length then xicorCore x y Ties.withTies
       else xicorCore x y Ties.noTies) ∧
    xicorCore x y Ties.withTies =
      Except.ok (1 - ((nominator0 x y : ℚ) * (y.length : ℚ)) / tiesDenominator x y) ∧
    xicorCore x y Ties.noTies =
      Except.ok (1 - ((nominator0 x y : ℚ) * 3) / noTiesDenominator y.length) := by
  refine ⟨by simp [resolveTies], ?_, ?_, ?_⟩
  · by_cases h : y.dedup.length < y.length <;>
      simp [xicorCore, hlen, xicorStatTotal, resolveTies, h]
  · simp [xicorCore, hlen, xicorStatTotal, resolveTies]
  · simp [xicorCore, hlen, xicorStatTotal, resolveTies]

/-- Witness for `xicor_auto_resolution` at `x = [1, 2]`, `y = [1, 1]`. -/
theorem xicor_auto_resolution_witness :
    [(1 : ℚ), 2].length = [(1 : ℚ), 1].length ∧
    ((resolveTies Ties.auto [(1 : ℚ), 1] = true ↔
        [(1 : ℚ), 1].dedup.length < [(1 : ℚ), 1].length) ∧
      xicorCore [(1 : ℚ), 2] [(1 : ℚ), 1] Ties.auto =
        (if [(1 : ℚ), 1].dedup.length < [(1 : ℚ), 1].length then
          xicorCore [(1 : ℚ), 2] [(1 : ℚ), 1] Ties.withTies
         else xicorCore [(1 : ℚ), 2] [(1 : ℚ), 1] Ties.noTies) ∧
      xicorCore [(1 : ℚ), 2] [(1 : ℚ), 1] Ties.withTies =
        Except.ok (1 - ((nominator0 [(1 : ℚ), 2] [(1 : ℚ), 1] : ℚ) *
          ([(1 : ℚ), 1].length : ℚ)) / tiesDenominator [(1 : ℚ), 2] [(1 : ℚ), 1]) ∧
      xicorCore [(1 : ℚ), 2] [(1 : ℚ), 1] Ties.noTies =
        Except.ok (1 - ((nominator0 [(1 : ℚ), 2] [(1 : ℚ), 1] : ℚ) * 3) /
          noTiesDenominator [(1 : ℚ), 1].length)) :=
  ⟨rfl, xicor_auto_resolution [(1 : ℚ), 2] [(1 : ℚ), 1] rfl⟩

lemma countP_take_drop (l : List ℚ) (p : ℚ → Bool) (i : ℕ) :
    l.countP p = (l.take i).countP p + (l.drop i).countP p := by
  conv_lhs => rw [← List.take_append_drop i l]
  rw [List.countP_append]

lemma countP_lt_of_pairwise_lt {l : List ℚ} (h : l.Pairwise (· < ·)) {i : ℕ}
    (hi : i < l.length) :
    l.countP (fun z => decide (z < l[i])) = i := by
  rw [countP_take_drop l _ i]
  have h1 : (l.take i).countP (fun z => decide (z < l[i])) = (l.take i).length := by
    rw [List.countP_eq_length]
    intro a ha
    obtain ⟨j, hj, rfl⟩ := List.getElem_of_mem ha
    rw [List.getElem_take]
    have hji : j < i := by
      have := hj
      rw [List.length_take] at this
      omega
    simpa using List.pairwise_iff_getElem.mp h j i _ hi hji
  have h2 : (l.drop i).countP (fun z => decide (z < l[i])) = 0 := by
    rw [List.countP_eq_zero]
    intro a ha
    obtain ⟨j, hj, rfl⟩ := List.getElem_of_mem ha
    rw [List.getElem_drop]
    simp only [decide_eq_true_eq, not_lt]
    rcases Nat.eq_zero_or_pos j with rfl | hpos
    · simp
    · have hlt : i < i + j := by omega
      have hb : i + j < l.length := by
        have := hj
        rw [List.length_drop] at this
        omega
      exact le_of_lt (List.pairwise_iff_getElem.mp h i (i + j) hi hb hlt)
  rw [h1, h2, List.length_take]
  omega

lemma countP_lt_of_pairwise_gt {l : List ℚ} (h : l.Pairwise (· > ·)) {i : ℕ}
    (hi : i < l.length) :
    l.countP (fun z => decide (z < l[i])) = l.length - i - 1 := by
  rw [countP_take_drop l _ i]
  have h1 : (l.take i).countP (fun z => decide (z < l[i])) = 0 := by
    rw [List.countP_eq_zero]
    intro a ha
    obtain ⟨j, hj, rfl⟩ := List.getElem_of_mem ha
    rw [List.getElem_take]
    have hji : j < i := by
      have := hj
      rw [List.length_take] at this
      omega
    simp only [decide_eq_true_eq, not_lt]
    exact le_of_lt (List.pairwise_iff_getElem.mp h j i _ hi hji)
  have h2 : (l.drop i).countP (fun z => decide (z < l[i])) = l.length - i - 1 := by
    rw [List.drop_eq_getElem_cons hi, List.countP_cons]
    have hself : decide (l[i] < l[i]) = false := by simp
    rw [hself]
    have h3 : (l.drop (i + 1)).countP (fun z => decide (z < l[i])) =
        (l.drop (i + 1)).length := by
      rw [List.countP_eq_length]
      intro a ha
      obtain ⟨j, hj, rfl⟩ := List.getElem_of_mem ha
      rw [List.getElem_drop]
      have hb : i + 1 + j < l.length := by
        have := hj
        rw [List.length_drop] at this
        omega
      simpa using List.pairwise_iff_getElem.mp h i (i + 1 + j) hi hb (by omega)
    rw [h3, List.length_drop]
    simp only [Bool.false_eq_true, if_false]
    omega
  rw [h1, h2]
  omega

lemma countP_eq_take_of_nodup {l : List ℚ} (h : l.Nodup) {i : ℕ}
    (hi : i < l.length) :
    (l.take i).countP (fun z => decide (z = l[i])) = 0 := by
  rw [List.countP_eq_zero]
  intro a ha
  obtain ⟨j, hj, rfl⟩ := List.getElem_of_mem ha
  rw [List.getElem_take]
  have hji : j < i := by
    have := hj
    rw [List.length_take] at this
    omega
  simp only [decide_eq_true_eq]
  intro heq
  exact absurd (h.getElem_inj_iff.mp heq) (by omega)

lemma rankOrd_eq_of_pairwise_lt {l : List ℚ} (h : l.Pairwise (· < ·)) :
    rankOrd l = (List.range l.length).map (fun i => i + 1) := by
  rw [rankOrd]
  apply List.map_congr_left
  intro i hi
  rw [List.mem_range] at hi
  rw [List.getD_eq_getElem l 0 hi, countP_lt_of_pairwise_lt h hi,
    countP_eq_take_of_nodup (h.imp (fun hab => ne_of_lt hab)) hi]
  omega

lemma rankOrd_eq_of_pairwise_gt {l : List ℚ} (h : l.Pairwise (· > ·)) :
    rankOrd l = (List.range l.length).map (fun i => l.length - i) := by
  rw [rankOrd]
  apply List.map_congr_left
  intro i hi
  rw [List.mem_range] at hi
  rw [List.getD_eq_getElem l 0 hi, countP_lt_of_pairwise_gt h hi,
    countP_eq_take_of_nodup (h.imp (fun hab => ne_of_gt hab)) hi]
  omega

lemma mem_zip_tail {α : Type} {l : List α} {p : α × α} (hp : p ∈ l.zip l.tail) :
    ∃ i, ∃ h : i + 1 < l.length, p = (l[i], l[i + 1]) := by
  obtain ⟨j, hj, hje⟩ := List.getElem_of_mem hp
  have hjl : j + 1 < l.length := by
    have := hj
    rw [List.length_zip, List.length_tail] at this
    omega
  refine ⟨j, hjl, ?_⟩
  rw [← hje, List.getElem_zip]
  congr 1
  simp [List.getElem_tail]

lemma absDiffSum_all_one {r : List ℕ}
    (h : ∀ p ∈ r.zip r.tail, (((p.2 : ℤ) - (p.1 : ℤ)).natAbs : ℕ) = 1) :
    absDiffSum r = r.length - 1 := by
  rw [absDiffSum, List.map_congr_left h, List.map_const', List.sum_replicate,
    smul_eq_mul, mul_one, List.length_zip, List.length_tail]
  omega

lemma absDiffSum_range_succ (n : ℕ) :
    absDiffSum ((List.range n).map (fun i => i + 1)) = n - 1 := by
  have hlen : ((List.range n).map (fun i => i + 1)).length = n := by simp
  rw [absDiffSum_all_one, hlen]
  intro p hp
  obtain ⟨i, hi, rfl⟩ := mem_zip_tail hp
  rw [hlen] at hi
  simp only [List.getElem_map, List.getElem_range]
  omega

lemma absDiffSum_range_sub (n : ℕ) :
    absDiffSum ((List.range n).map (fun i => n - i)) = n - 1 := by
  have hlen : ((List.range n).map (fun i => n - i)).length = n := by simp
  rw [absDiffSum_all_one, hlen]
  intro p hp
  obtain ⟨i, hi, rfl⟩ := mem_zip_tail hp
  rw [hlen] at hi
  simp only [List.getElem_map, List.getElem_range]
  omega

lemma xSortedY_perm (x y : List ℚ) (hlen : x.length = y.length) :
    List.Perm (xSortedY x y) y := by
  rw [xSortedY]
  have h1 : List.Perm ((x.zip y).insertionSort (fun a b => a.1 ≤ b.1)) (x.zip y) :=
    List.perm_insertionSort _ _
  have h2 := h1.map Prod.snd
  rwa [List.map_snd_zip x y (le_of_eq hlen.symm)] at h2

/-- C4 (counterexample): `x = [1,2]`, `y = [1,2]` — `y` in `x`-sorted order is
strictly increasing with no ties, yet the statistic is `0`, not `1`. -/
theorem xicor_strict_mono_not_one_cex :
    (xSortedY [(1 : ℚ), 2] [(1 : ℚ), 2]).Chain' (· < ·) ∧
    xicorCore [(1 : ℚ), 2] [(1 : ℚ), 2] Ties.auto = Except.ok (0 : ℚ) ∧
    (0 : ℚ) ≠ 1 := by
  have hxs : xSortedY [(1 : ℚ), 2] [(1 : ℚ), 2] = [1, 2] := by decide
  refine ⟨by rw [hxs]; norm_num [List.chain'_cons, List.chain'_singleton], ?_, by norm_num⟩
  have hnom : nominator0 [(1 : ℚ), 2] [(1 : ℚ), 2] = 1 := by decide
  have hres : resolveTies Ties.auto [(1 : ℚ), 2] = false := by decide
  simp only [xicorCore, xicorStatTotal, hres, hnom, Bool.false_eq_true, if_false,
    List.length_cons, List.length_nil, ne_eq, not_true_eq_false]
  norm_num [noTiesDenominator]

/-- C4 (amended): when `y` in `x`-sorted order is strictly monotone with no
ties and `n ≥ 2`, the statistic is `1 - 3 / (n + 1)` — the strictly-monotone
maximum of the estimator, approaching 1 only as `n → ∞`. -/
theorem xicor_strict_mono_value (x y : List ℚ)
    (hlen : x.length = y.length) (hn : 2 ≤ y.length)
    (hmono : (xSortedY x y).Chain' (· < ·) ∨ (xSortedY x y).Chain' (· > ·)) :
    xicorCore x y Ties.auto = Except.ok (1 - 3 / ((y.length : ℚ) + 1)) := by
  have hlys : (xSortedY x y).length = y.length := length_xSortedY x y hlen
  have hpw : (xSortedY x y).Pairwise (· < ·) ∨ (xSortedY x y).Pairwise (· > ·) := by
    rcases hmono with h | h
    · exact Or.inl (List.chain'_iff_pairwise.mp h)
    · exact Or.inr (List.chain'_iff_pairwise.mp h)
  have hnd : (xSortedY x y).Nodup := by
    rcases hpw with h | h
    · exact h.imp (fun hab => ne_of_lt hab)
    · exact h.imp (fun hab => ne_of_gt hab)
  have hndy : y.Nodup := ((xSortedY_perm x y hlen).nodup_iff).mp hnd
  have hres : resolveTies Ties.auto y = false := by
    simp [resolveTies, List.dedup_eq_self.mpr hndy]
  have hrank : nominator0 x y = y.length - 1 := by
    rw [nominator0]
    rcases hpw with h | h
    · rw [rankOrd_eq_of_pairwise_lt h, hlys, absDiffSum_range_succ]
    · rw [rankOrd_eq_of_pairwise_gt h, hlys, absDiffSum_range_sub]
  simp only [xicorCore, xicorStatTotal, hres, hrank, Bool.false_eq_true, if_false,
    ne_eq, hlen, not_true_eq_false]
  congr 1
  have h2 : (2 : ℚ) ≤ (y.length : ℚ) := by exact_mod_cast hn
  have hcast : ((y.length - 1 : ℕ) : ℚ) = (y.length : ℚ) - 1 :=
    Nat.cast_sub (by omega)
  rw [hcast, noTiesDenominator]
  have hne1 : (y.length : ℚ) + 1 ≠ 0 := by positivity
  have hne2 : (y.length : ℚ) ^ 2 - 1 ≠ 0 := by nlinarith
  field_simp
  ring

/-- Witness for `xicor_strict_mono_value` at `x = [1,2,3]`, `y = [3,2,1]`
(strictly decreasing in `x`-sorted order). -/
theorem xicor_strict_mono_value_witness :
    [(1 : ℚ), 2, 3].length = [(3 : ℚ), 2, 1].length ∧ 2 ≤ [(3 : ℚ), 2, 1].length ∧
    ((xSortedY [(1 : ℚ), 2, 3] [(3 : ℚ), 2, 1]).Chain' (· < ·) ∨
      (xSortedY [(1 : ℚ), 2, 3] [(3 : ℚ), 2, 1]).Chain' (· > ·)) ∧
    xicorCore [(1 : ℚ), 2, 3] [(3 : ℚ), 2, 1] Ties.auto =
      Except.ok (1 - 3 / (([(3 : ℚ), 2, 1].length : ℚ) + 1)) := by
  have hxs : xSortedY [(1 : ℚ), 2, 3] [(3 : ℚ), 2, 1] = [3, 2, 1] := by decide
  have hch : (xSortedY [(1 : ℚ), 2, 3] [(3 : ℚ), 2, 1]).Chain' (· > ·) := by
    rw [hxs]
    norm_num [List.chain'_cons, List.chain'_singleton]
  exact ⟨rfl, by decide, Or.inr hch,
    xicor_strict_mono_value [(1 : ℚ), 2, 3] [(3 : ℚ), 2, 1] rfl (by decide) (Or.inr hch)⟩

lemma xSortedY_map_strictMono (x y : List ℚ) (g : ℚ → ℚ) (hg : StrictMono g) :
    xSortedY (x.map g) y = xSortedY x y := by
  rw [xSortedY, xSortedY, List.zip_map_left]
  have hmap := List.map_insertionSort (fun a b : ℚ × ℚ => a.1 ≤ b.1)
    (fun a b : ℚ × ℚ => a.1 ≤ b.1) (Prod.map g id) (x.zip y)
    (fun a _ b _ => (hg.le_iff_le).symm)
  rw [← hmap, List.map_map]
  congr 1

/-- C10: composing `x` with any strictly increasing map leaves the whole
estimator output unchanged — the result depends on `x` only through its sort
permutation. -/
theorem xicor_strict_mono_x_invariant (x y : List ℚ) (ties : Ties) (g : ℚ → ℚ)
    (hg : StrictMono g) :
    xicorCore (x.map g) y ties = xicorCore x y ties ∧
    xicorPValue (xicorStatTotal (x.map g) y ties) y.length =
      xicorPValue (xicorStatTotal x y ties) y.length := by
  have hxs : xSortedY (x.map g) y = xSortedY x y := xSortedY_map_strictMono x y g hg
  have hstat : xicorStatTotal (x.map g) y ties = xicorStatTotal x y ties := by
    rw [xicorStatTotal, xicorStatTotal, nominator0, nominator0,
      tiesDenominator, tiesDenominator, hxs]
  refine ⟨?_, by rw [hstat]⟩
  rw [xicorCore, xicorCore, List.length_map, hstat]

/-- Witness for `xicor_strict_mono_x_invariant` with `g = (· + 1)` on
`x = [2, 1, 3]`, `y = [5, 4, 6]`. -/
theorem xicor_strict_mono_x_invariant_witness :
    StrictMono (fun q : ℚ => q + 1) ∧
    (xicorCore ([(2 : ℚ), 1, 3].map (fun q : ℚ => q + 1)) [(5 : ℚ), 4, 6] Ties.auto =
        xicorCore [(2 : ℚ), 1, 3] [(5 : ℚ), 4, 6] Ties.auto ∧
      xicorPValue (xicorStatTotal ([(2 : ℚ), 1, 3].map (fun q : ℚ => q + 1))
          [(5 : ℚ), 4, 6] Ties.auto) [(5 : ℚ), 4, 6].length =
        xicorPValue (xicorStatTotal [(2 : ℚ), 1, 3] [(5 : ℚ), 4, 6] Ties.auto)
          [(5 : ℚ), 4, 6].length) := by
  have hm : StrictMono (fun q : ℚ => q + 1) := fun a b h => add_lt_add_right h 1
  exact ⟨hm, xicor_strict_mono_x_invariant [(2 : ℚ), 1, 3] [(5 : ℚ), 4, 6] Ties.auto _ hm⟩

/-- A table: named numeric columns of one common length (`pandas.DataFrame`
restricted to what the analyzer uses). -/
structure Table where
  nrows : ℕ
  cols : String → List ℚ
  len_cols : ∀ c, (cols c).length = nrows

/-- A value stored in an output DataFrame cell. -/
inductive DFVal where
  | str (s : String) : DFVal
  | num (q : ℚ) : DFVal
  | real (r : ℝ) : DFVal

/-- The dictionary built by `_xicordf` (lines 173-176): variable name,
target name, statistic and p-value. -/
structure XicorScore where
  x : String
  y : String
  xicor : ℚ
  pvalue : ℝ

/-- `_xicordf(data, x_col, y_col, ties)` (lines 150-176).  The length check
inside `_get_xicor` always passes here because both columns come from the
same table. -/
noncomputable def xicordfScore (data : Table) (xCol yCol : String) (ties : Ties) :
    XicorScore :=
  ⟨xCol, yCol,
    xicorStatTotal (data.cols xCol) (data.cols yCol) ties,
    xicorPValue (xicorStatTotal (data.cols xCol) (data.cols yCol) ties)
      (data.cols yCol).length⟩

lemma xicordfScore_ok (data : Table) (xCol yCol : String) (ties : Ties) :
    xicorCore (data.cols xCol) (data.cols yCol) ties =
      Except.ok (xicordfScore data xCol yCol ties).xicor := by
  simp [xicorCore, xicordfScore, data.len_cols]

/-- Descending comparison on scores used by
`scores.sort(key=lambda item: item["xicor"], reverse=True)` (line 140);
Python timsort with `reverse=True` is a stable descending sort. -/
def scoreGE (a b : XicorScore) : Prop := b.xicor ≤ a.xicor

instance : DecidableRel scoreGE := fun a b =>
  inferInstanceAs (Decidable (b.xicor ≤ a.xicor))

instance : IsTrans XicorScore scoreGE :=
  ⟨fun _ _ _ hab hbc => le_trans hbc hab⟩

instance : IsTotal XicorScore scoreGE :=
  ⟨fun a b => le_total b.xicor a.xicor⟩

/-- `df_columns = ["x", "y", "xicor", "p-value"]` (line 142). -/
def df_columns : List String := ["x", "y", "xicor", "p-value"]

/-- `score[column]` lookup in the dict comprehension of line 143
(only ever applied to the four keys of `df_columns`). -/
def scoreGetField (s : XicorScore) (c : String) : DFVal :=
  if c = "x" then DFVal.str s.x
  else if c = "y" then DFVal.str s.y
  else if c = "xicor" then DFVal.num s.xicor
  else DFVal.real s.pvalue

/-- `data_dict = {column: [score[column] for score in scores] for column in
df_columns}` (line 143), as a column-oriented frame. -/
def xicorDataDict (scores : List XicorScore) : List (String × List DFVal) :=
  df_columns.map (fun c => (c, scores.map (fun s => scoreGetField s c)))

/-- `df[[...]]` column selection (line 145): keep the named columns, in the
given order. -/
def dfSelect (df : List (String × List DFVal)) (colsSel : List String) :
    List (String × List DFVal) :=
  colsSel.filterMap (fun c => (df.find? (fun p => p.1 == c)).map (fun p => (c, p.2)))

/-- `df.columns = [...]` positional renaming (line 146). -/
def dfRename (newNames : List String) (df : List (String × List DFVal)) :
    List (String × List DFVal) :=
  (newNames.zip df).map (fun q => (q.1, q.2.2))

/-- `_get_xicor_score` (lines 116-147): score every variable column against
the target, sort descending by the statistic, build the four-column frame,
select `['y', 'x', 'xicor']` and rename to `['col1', 'col2', 'xicor']`. -/
noncomputable def getXicorScore (data : Table) (variableCol : List String)
    (targetCol : String) (ties : Ties) : List (String × List DFVal) :=
  dfRename ["col1", "col2", "xicor"]
    (dfSelect
      (xicorDataDict
        ((variableCol.map (fun c => xicordfScore data c targetCol ties)).insertionSort
          scoreGE))
      ["y", "x", "xicor"])

lemma getXicorScore_eq (data : Table) (variableCol : List String)
    (targetCol : String) (ties : Ties) :
    getXicorScore data variableCol targetCol ties =
      [("col1",
        ((variableCol.map (fun c => xicordfScore data c targetCol ties)).insertionSort
          scoreGE).map (fun s => DFVal.str s.y)),
       ("col2",
        ((variableCol.map (fun c => xicordfScore data c targetCol ties)).insertionSort
          scoreGE).map (fun s => DFVal.str s.x)),
       ("xicor",
        ((variableCol.map (fun c => xicordfScore data c targetCol ties)).insertionSort
          scoreGE).map (fun s => DFVal.num s.xicor))] :=
  rfl

/-- C7: the Xi analyzer output has exactly the columns
`col1, col2, xicor`, one row per variable column, `col1` constantly the
target name, and rows sorted by the statistic descending. -/
theorem xicor_score_table_canonical (data : Table) (variableCol : List String)
    (targetCol : String) (ties : Ties) (hne : variableCol ≠ []) :
    ∃ sorted : List XicorScore,
      getXicorScore data variableCol targetCol ties =
        [("col1", sorted.map (fun s => DFVal.str s.y)),
         ("col2", sorted.map (fun s => DFVal.str s.x)),
         ("xicor", sorted.map (fun s => DFVal.num s.xicor))] ∧
      sorted.length = variableCol.length ∧
      (∀ s ∈ sorted, s.y = targetCol) ∧
      (sorted.map (fun s => s.xicor)).Sorted (· ≥ ·) := by
  refine ⟨(variableCol.map (fun c => xicordfScore data c targetCol ties)).insertionSort
    scoreGE, getXicorScore_eq data variableCol targetCol ties, by simp, ?_, ?_⟩
  · intro s hs
    rw [List.mem_insertionSort] at hs
    obtain ⟨c, _, rfl⟩ := List.mem_map.mp hs
    rfl
  · have hsorted := List.sorted_insertionSort scoreGE
      (variableCol.map (fun c => xicordfScore data c targetCol ties))
    exact hsorted.map _ (fun a b hab => hab)

/-- A concrete two-row table used by witnesses. -/
def tblW : Table :=
  ⟨2, fun c => if c = "a" then [1, 2] else [2, 1], by
    intro c
    by_cases h : c = "a" <;> simp [h]⟩

/-- Witness for `xicor_score_table_canonical` on `tblW`,
`variable_columns = ["a"]`, target `"t"`. -/
theorem xicor_score_table_canonical_witness :
    ["a"] ≠ ([] : List String) ∧
    ∃ sorted : List XicorScore,
      getXicorScore tblW ["a"] "t" Ties.auto =
        [("col1", sorted.map (fun s => DFVal.str s.y)),
         ("col2", sorted.map (fun s => DFVal.str s.x)),
         ("xicor", sorted.map (fun s => DFVal.num s.xicor))] ∧
      sorted.length = ["a"].length ∧
      (∀ s ∈ sorted, s.y = "t") ∧
      (sorted.map (fun s => s.xicor)).Sorted (· ≥ ·) :=
  ⟨by simp, xicor_score_table_canonical tblW ["a"] "t" Ties.auto (by simp)⟩

/-- C8 (counterexample): on a concrete call the returned table's columns are
exactly `col1, col2, xicor` — no `p-value` field is retained in the result. -/
theorem xicor_score_pvalue_cex :
    (getXicorScore tblW ["a"] "t" Ties.auto).map Prod.fst = ["col1", "col2", "xicor"] ∧
    "p-value" ∉ (getXicorScore tblW ["a"] "t" Ties.auto).map Prod.fst := by
  rw [getXicorScore_eq]
  simp

/-- C8 (amended): for every call, the intermediate frame of line 143 does
carry a `p-value` column, but the final selection of lines 145-146 drops it:
the returned table's columns are exactly `col1, col2, xicor`. -/
theorem xicor_score_pvalue_dropped (data : Table) (variableCol : List String)
    (targetCol : String) (ties : Ties) :
    (xicorDataDict
      ((variableCol.map (fun c => xicordfScore data c targetCol ties)).insertionSort
        scoreGE)).map Prod.fst = df_columns ∧
    "p-value" ∈ df_columns ∧
    (getXicorScore data variableCol targetCol ties).map Prod.fst =
      ["col1", "col2", "xicor"] ∧
    "p-value" ∉ (getXicorScore data variableCol targetCol ties).map Prod.fst := by
  refine ⟨?_, by simp [df_columns], ?_, ?_⟩
  · rfl
  · rw [getXicorScore_eq]
    rfl
  · rw [getXicorScore_eq]
    simp

/-- Result of `corr` (line 19): either a visualization handle (scatter) or a
score table. -/
inductive CorrOutput where
  | viz : CorrOutput
  | table (rows : List (String × List DFVal)) : CorrOutput

/-- `CorrelationAnalyzer.corr` (lines 49-58): string dispatch on `method`.
The Pearson and predictive-power routines are external collaborators
(pandas `.corr` and `ppscore`), passed as parameters. -/
noncomputable def corr
    (pearsonCorr : Table → List String → String → List (String × List DFVal))
    (ppsScore : Table → List String → String → List (String × List DFVal))
    (data : Table) (variableCol : List String) (targetCol : String)
    (method : String) (ties : Ties) : Except String CorrOutput :=
  if method = "scatter" then Except.ok CorrOutput.viz
  else if method ∈ ["pearson", "kendall", "spearman"] then
    Except.ok (CorrOutput.table (pearsonCorr data variableCol targetCol))
  else if method = "ppscore" then
    Except.ok (CorrOutput.table (ppsScore data variableCol targetCol))
  else if method = "xicor" then
    Except.ok (CorrOutput.table (getXicorScore data variableCol targetCol ties))
  else
    Except.error ("Unsupported method: " ++ method)

/-- C9: `method = "kendall"` and `method = "spearman"` are accepted (no
unsupported-method error) and return exactly the result of the Pearson
branch: all three delegate to the same `_get_correlation` call. -/
theorem corr_kendall_spearman_pearson
    (pearsonCorr ppsScore : Table → List String → String → List (String × List DFVal))
    (data : Table) (variableCol : List String) (targetCol : String) (ties : Ties) :
    corr pearsonCorr ppsScore data variableCol targetCol "kendall" ties =
      corr pearsonCorr ppsScore data variableCol targetCol "pearson" ties ∧
    corr pearsonCorr ppsScore data variableCol targetCol "spearman" ties =
      corr pearsonCorr ppsScore data variableCol targetCol "pearson" ties ∧
    corr pearsonCorr ppsScore data variableCol targetCol "kendall" ties =
      Except.ok (CorrOutput.table (pearsonCorr data variableCol targetCol)) ∧
    corr pearsonCorr ppsScore data variableCol targetCol "spearman" ties =
      Except.ok (CorrOutput.table (pearsonCorr data variableCol targetCol)) := by
  refine ⟨?_, ?_, ?_, ?_⟩ <;> rfl

end XicorSpec
